import Mathlib

/-!
# StoryToVideo, QueueFRPTOS: the task dispatcher and its result reconcilers

A shallow embedding of `service/processor.go`, `service/contract.go` and
`models/models.go`, followed by the properties of the dispatcher
(`HandleGenerateTask`), the two reconcilers (`handleStoryboardCreation`,
`handleShotUpdate`) and the status helper (`updateStatus`).

Conventions of the embedding.

* The GORM handle `p.DB` is an explicit store value `DB` (the `tasks` and
  `shots` tables as lists of rows); every function that writes returns the
  new store.
* A Go `map[string]interface{}` is an association list with distinct keys,
  listed in the order `json.Marshal` emits them (sorted by key); `JSONMap`
  keeps the nil map apart from the empty map, as `result != nil` does.
* `time.Now()`, `uuid.NewString()`, the HTTP exchange with the worker and the
  outcome of the batch insert are supplied by a `World` value.
* A Go `error` is its message together with whether it wraps
  `asynq.SkipRetry`. Log lines are not modelled.
* `Model(..).Where("id = ?", id).Updates(m)` assigns the columns present in
  `m` on every row whose id matches; on a model with an `UpdatedAt` field GORM
  also refreshes `updated_at`. The handler ignores the error of these
  statements, and they are taken to succeed.
* `Create(&batch)` runs in GORM's default transaction: it appends the whole
  batch or, when it fails, nothing.
-/

namespace StoryToVideo

/-! ## models/models.go -/

def TaskStatusPending : String := "pending"
def TaskStatusProcessing : String := "processing"
def TaskStatusSuccess : String := "success"
def TaskStatusFailed : String := "failed"

def TaskTypeStoryboard : String := "storyboard"
def TaskTypeShotGen : String := "shot_generation"

/-- A JSON value as `encoding/json` decodes it into an `interface{}`.
The payload of a number is never inspected by the code. -/
inductive JVal where
  | null : JVal
  | bool (b : Bool) : JVal
  | num (n : Int) : JVal
  | str (s : String) : JVal
  | arr (xs : List JVal) : JVal
  | obj (kvs : List (String × JVal)) : JVal

/-- The type `models.JSONMap`: the nil map, or a map given by its entries. -/
inductive JSONMap where
  | nil : JSONMap
  | map (kvs : List (String × JVal)) : JSONMap

/-- The two-valued index expression `v, ok := m[key]`: `none` when `ok` is false. -/
def JSONMap.get : JSONMap → String → Option JVal
  | .nil, _ => none
  | .map kvs, key => kvs.lookup key

/-- Whether a map holds at least one entry (`len(m) > 0`). -/
def JSONMap.nonEmpty : JSONMap → Bool
  | .nil => false
  | .map [] => false
  | .map (_ :: _) => true

/-- Row of `models.Task`. Times are clock readings. -/
structure Task where
  ID : String
  ProjectID : String
  ShotID : String
  Type_ : String
  Status : String
  Parameters : JSONMap
  Result : JSONMap
  Error : String
  CreatedAt : Nat
  UpdatedAt : Nat

/-- Row of `models.Shot`. `Duration` is kept in thousandths; it is never computed with. -/
structure Shot where
  ID : String
  ProjectID : String
  Order : Int
  Title : String
  Description : String
  Prompt : String
  Narration : String
  Status : String
  ImagePath : String
  AudioPath : String
  Transition : String
  Duration : Nat
  CreatedAt : Nat
  UpdatedAt : Nat

/-- The store behind `p.DB`: the `tasks` and `shots` tables. -/
structure DB where
  tasks : List Task
  shots : List Shot

/-- Query `DB.First(&task, "id = ?", id)`: the first matching row, `none` for `ErrRecordNotFound`. -/
def DB.First (db : DB) (id : String) : Option Task :=
  db.tasks.find? (fun t => t.ID = id)

/-! ## The `updates` maps handed to GORM -/

/-- The `map[string]interface{}` built by `updateStatus`: a column is `some v` when the key is present. -/
structure TaskUpdates where
  status : Option String
  updated_at : Option Nat
  result : Option JSONMap
  error : Option String

/-- Column assignment of `Updates` on one task row. -/
def TaskUpdates.apply (u : TaskUpdates) (t : Task) : Task :=
  { t with
    Status := u.status.getD t.Status
    UpdatedAt := u.updated_at.getD t.UpdatedAt
    Result := u.result.getD t.Result
    Error := u.error.getD t.Error }

/-- Statement `DB.Model(&models.Task{}).Where("id = ?", taskID).Updates(updates)`. -/
def DB.updatesTask (db : DB) (taskID : String) (u : TaskUpdates) : DB :=
  { db with tasks := db.tasks.map (fun t => if t.ID = taskID then u.apply t else t) }

/-- The `map[string]interface{}` built by `handleShotUpdate`. -/
structure ShotUpdates where
  image_path : Option String
  status : Option String

/-- Number of keys, `len(updates)`. -/
def ShotUpdates.len (u : ShotUpdates) : Nat :=
  (if u.image_path.isSome then 1 else 0) + (if u.status.isSome then 1 else 0)

/-- Column assignment of `Updates` on one shot row; GORM also sets `updated_at`. -/
def ShotUpdates.apply (u : ShotUpdates) (now : Nat) (s : Shot) : Shot :=
  { s with
    ImagePath := u.image_path.getD s.ImagePath
    Status := u.status.getD s.Status
    UpdatedAt := now }

/-- Statement `DB.Model(&models.Shot{}).Where("id = ?", shotID).Updates(updates)`. -/
def DB.updatesShot (db : DB) (now : Nat) (shotID : String) (u : ShotUpdates) : DB :=
  { db with shots := db.shots.map (fun s => if s.ID = shotID then u.apply now s else s) }

/-- Row written for one element of a batch `DB.Create(&shots)`: zero-valued columns that
carry a `default:` tag take the default, and both timestamps are set. -/
def Shot.inserted (now : Nat) (s : Shot) : Shot :=
  { s with
    Status := if s.Status = "" then "pending" else s.Status
    Transition := if s.Transition = "" then "crossfade" else s.Transition
    Duration := if s.Duration = 0 then 3000 else s.Duration
    CreatedAt := now
    UpdatedAt := now }

/-- Statement `DB.Create(&shotsToCreate)` when it succeeds. -/
def DB.createShots (db : DB) (now : Nat) (batch : List Shot) : DB :=
  { db with shots := db.shots ++ batch.map (Shot.inserted now) }

/-! ## service/processor.go: updateStatus -/

/-- Source function `Processor.updateStatus`. -/
def updateStatus (db : DB) (now : Nat) (taskID status : String) (result : JSONMap)
    (errStr : String) : DB :=
  let updates : TaskUpdates :=
    { status := some status, updated_at := some now, result := none, error := none }
  let updates : TaskUpdates :=
    match result with
    | .nil => updates
    | .map kvs => { updates with result := some (.map kvs) }
  let updates : TaskUpdates :=
    if errStr ≠ "" then { updates with error := some errStr } else updates
  db.updatesTask taskID updates

/-! ## service/contract.go and the environment of one delivery -/

/-- The struct `WorkerResponse`, the decoded body of the worker's reply. -/
structure WorkerResponse where
  Status : String
  Result : JSONMap
  Error : String

/-- A Go `error` value: its message, and whether `errors.Is(err, asynq.SkipRetry)` holds. -/
structure GoError where
  msg : String
  skipRetry : Bool

/-- Outcome of `http.Post` followed by decoding the body: the call itself fails, or a
response arrives with a status code and a body that decodes into a `WorkerResponse` or not. -/
inductive HttpOutcome where
  | connErr (err : String) : HttpOutcome
  | response (statusCode : Nat) (body : Except String WorkerResponse) : HttpOutcome

/-- What the surroundings supply during one delivery: `clock 0`, `clock 1`, `clock 2` are the
clock readings at the Processing write, at the reconciler's write and at the final status
write; `uuid k` is the k-th value of `uuid.NewString()`; `post` is the worker behind
`WorkerEndpoint`; `createErr` is the error of the batch insert if it fails. -/
structure World where
  clock : Nat → Nat
  uuid : Nat → String
  post : JSONMap → HttpOutcome
  createErr : Option String

/-- Modelled from the spec: the envelope type `TaskPayload` is declared outside the given
sources; the queue message carries only the task identifier, read by the handler as `TaskID`. -/
structure TaskPayload where
  TaskID : String

/-! ## service/processor.go: the storyboard reconciler -/

/-- The local struct `workerShot` of `handleStoryboardCreation`. -/
structure workerShot where
  Title : String
  Description : String
  Prompt : String

/-- Case folding used by `encoding/json` to match an object key with a field name, restricted
to what can reach an ASCII letter: upper case, U+017F (long s) and U+212A (Kelvin sign). -/
def foldRune (c : Char) : Char :=
  if c.toNat = 0x17F then 's' else if c.toNat = 0x212A then 'k' else c.toLower

/-- Whether an object key names the struct field with JSON name `name` (lower-case ASCII). -/
def keyMatches (key name : String) : Bool :=
  key.data.map foldRune = name.data

/-- One key of the object being unmarshalled into a `workerShot`: a string is stored in the
matching field, `null` leaves it, any other value is an `UnmarshalTypeError` (decoding goes
on and the error is reported at the end); a key matching no field is ignored. -/
def decodeField (acc : workerShot × Bool) (kv : String × JVal) : workerShot × Bool :=
  if keyMatches kv.1 "title" then
    match kv.2 with
    | .str s => ({ acc.1 with Title := s }, acc.2)
    | .null => acc
    | _ => (acc.1, true)
  else if keyMatches kv.1 "description" then
    match kv.2 with
    | .str s => ({ acc.1 with Description := s }, acc.2)
    | .null => acc
    | _ => (acc.1, true)
  else if keyMatches kv.1 "prompt" then
    match kv.2 with
    | .str s => ({ acc.1 with Prompt := s }, acc.2)
    | .null => acc
    | _ => (acc.1, true)
  else acc

/-- The pair `json.Marshal(shotData)`, `json.Unmarshal(jsonBytes, &ws)`: `none` when
`Unmarshal` returns an error. A JSON `null` leaves `ws` at its zero value without error. -/
def decodeWorkerShot : JVal → Option workerShot
  | .null => some ⟨"", "", ""⟩
  | .obj kvs =>
    let r := kvs.foldl decodeField (⟨"", "", ""⟩, false)
    if r.2 then none else some r.1
  | _ => none

/-- The composite literal `newShot := models.Shot{...}`; unnamed fields are zero. -/
def newShot (id projectID prompt : String) (i : Nat) : Shot :=
  { ID := id
    ProjectID := projectID
    Prompt := prompt
    Order := (i : Int)
    Status := "pending"
    Title := "", Description := "", Narration := "", ImagePath := "", AudioPath := ""
    Transition := "", Duration := 0, CreatedAt := 0, UpdatedAt := 0 }

/-- The loop `for i, shotData := range shotsList` with its accumulator `shotsToCreate`. -/
def storyboardLoop (uuid : Nat → String) (projectID : String) :
    Nat → List JVal → List Shot → List Shot
  | _, [], shotsToCreate => shotsToCreate
  | i, shotData :: rest, shotsToCreate =>
    match decodeWorkerShot shotData with
    | none => storyboardLoop uuid projectID (i + 1) rest shotsToCreate
    | some ws =>
      let newShot := newShot (uuid shotsToCreate.length) projectID ws.Prompt i
      storyboardLoop uuid projectID (i + 1) rest (shotsToCreate ++ [newShot])

/-- Source function `Processor.handleStoryboardCreation`; returns the store and the error.
The `url` entry of the result is only logged. -/
def handleStoryboardCreation (w : World) (db : DB) (_taskID projectID : String)
    (result : JSONMap) : DB × Option GoError :=
  match result.get "shots" with
  | none => (db, some ⟨"worker response does not contain \x27shots\x27 field", false⟩)
  | some (.arr shotsList) =>
    let shotsToCreate := storyboardLoop w.uuid projectID 0 shotsList []
    if shotsToCreate.length > 0 then
      match w.createErr with
      | some e => (db, some ⟨"batch insert shots failed: " ++ e, false⟩)
      | none => (db.createShots (w.clock 1) shotsToCreate, none)
    else (db, none)
  | some _ => (db, some ⟨"\x27shots\x27 field is not a list", false⟩)

/-! ## service/processor.go: callWorker, handleShotUpdate, HandleGenerateTask -/

/-- Source function `Processor.callWorker`. -/
def callWorker (w : World) (reqBody : JSONMap) : Except GoError WorkerResponse :=
  match w.post reqBody with
  | .connErr err => .error ⟨err, false⟩
  | .response statusCode body =>
    if statusCode ≠ 200 then
      .error ⟨"worker returned status code: " ++ toString statusCode, false⟩
    else
      match body with
      | .error err => .error ⟨"failed to decode response: " ++ err, false⟩
      | .ok workerResp => .ok workerResp

/-- Source function `Processor.handleShotUpdate`. -/
def handleShotUpdate (db : DB) (now : Nat) (shotID : String) (result : JSONMap) : DB :=
  if shotID = "" then db
  else
    let updates : ShotUpdates := ⟨none, none⟩
    let updates : ShotUpdates :=
      match result.get "images" with
      | some (.arr (first :: _)) =>
        match first with
        | .str url => ⟨some url, some "completed"⟩
        | _ => updates
      | _ => updates
    if updates.len > 0 then db.updatesShot now shotID updates else db

/-- A `JSONMap` stored as a value inside another map. -/
def JSONMap.toJVal : JSONMap → JVal
  | .nil => .null
  | .map kvs => .obj kvs

/-- The request map `workerReq` built by the handler, keys in marshalling order. -/
def workerReq (task : Task) : JSONMap :=
  let promptKey := if task.Type_ = TaskTypeShotGen then "prompt" else "story_text"
  .map ([("params", task.Parameters.toJVal)]
    ++ (match task.Parameters.get promptKey with
        | some val => [("prompt", val)]
        | none => [])
    ++ [("task_id", .str task.ID), ("type", .str task.Type_)])

/-- Lines 53 to 63 of `Processor.HandleGenerateTask`: decode the envelope, load the task,
write status Processing. `payload` is the outcome of `json.Unmarshal(t.Payload(), &payload)`.
Returns the loaded `task` variable and the store after the write, or the returned error. -/
def loadAndMarkProcessing (w : World) (db : DB) (payload : Except String TaskPayload) :
    Except GoError (Task × DB) :=
  match payload with
  | .error err => .error ⟨"json.Unmarshal failed: " ++ err ++ ": skip retry for the task", true⟩
  | .ok payload =>
    match db.First payload.TaskID with
    | none => .error ⟨"task not found: record not found", false⟩
    | some task => .ok (task, updateStatus db (w.clock 0) task.ID TaskStatusProcessing .nil "")

/-- Lines 94 to 104 of `Processor.HandleGenerateTask`: the reconciler chosen by the task
type, with the resulting `processingErr`. -/
def reconcile (w : World) (db : DB) (task : Task) (result : JSONMap) : DB × Option GoError :=
  if task.Type_ = TaskTypeShotGen then
    (handleShotUpdate db (w.clock 1) task.ShotID result, none)
  else if task.Type_ = TaskTypeStoryboard then
    match handleStoryboardCreation w db task.ID task.ProjectID result with
    | (db, some err) => (db, some ⟨"failed to create shots: " ++ err.msg, false⟩)
    | (db, none) => (db, none)
  else (db, none)

/-- Lines 65 to 114 of `Processor.HandleGenerateTask`: call the worker for the loaded task,
reconcile, write the final status. Returns the handler's `error` and the store. -/
def dispatchLoaded (w : World) (db : DB) (task : Task) : Option GoError × DB :=
  match callWorker w (workerReq task) with
  | .error err =>
    (some err,
      updateStatus db (w.clock 2) task.ID TaskStatusFailed .nil
        ("Worker connection error: " ++ err.msg))
  | .ok workerResp =>
    if workerResp.Status ≠ "success" then
      (none, updateStatus db (w.clock 2) task.ID TaskStatusFailed .nil workerResp.Error)
    else
      match reconcile w db task workerResp.Result with
      | (db, some processingErr) =>
        (none,
          updateStatus db (w.clock 2) task.ID TaskStatusFailed workerResp.Result
            processingErr.msg)
      | (db, none) =>
        (none, updateStatus db (w.clock 2) task.ID TaskStatusSuccess workerResp.Result "")

/-- Source function `Processor.HandleGenerateTask`: the two parts above in sequence.
Returns the handler's `error` and the store it leaves. -/
def HandleGenerateTask (w : World) (db : DB) (payload : Except String TaskPayload) :
    Option GoError × DB :=
  match loadAndMarkProcessing w db payload with
  | .error err => (some err, db)
  | .ok (task, db) => dispatchLoaded w db task

/-! ## Notions used in the statements -/

/-- How the queue treats the handler's return value: `nil` is done, an error wrapping
`asynq.SkipRetry` is a permanent failure, any other error is retried. -/
inductive Delivery where
  | done : Delivery
  | permanentlyFailed : Delivery
  | retryable : Delivery
  deriving DecidableEq

/-- Classification of the handler's return value. -/
def classify : Option GoError → Delivery
  | none => .done
  | some err => if err.skipRetry then .permanentlyFailed else .retryable

/-- Transport-level failure of the worker call, in the spec's words: a connection error, a
non-200 status code, or an undecodable body. -/
def HttpOutcome.transportFailure : HttpOutcome → Bool
  | .connErr _ => true
  | .response _ (.error _) => true
  | .response statusCode (.ok _) => decide (statusCode ≠ 200)

/-- A stored result counts as set when it holds at least one entry. -/
def Task.resultSet (t : Task) : Bool := t.Result.nonEmpty

/-- The row `updateStatus` leaves for a task it addresses. -/
def Task.written (t : Task) (now : Nat) (status : String) (result : JSONMap)
    (errStr : String) : Task :=
  { t with
    Status := status
    UpdatedAt := now
    Result := match result with
      | .nil => t.Result
      | .map kvs => .map kvs
    Error := if errStr = "" then t.Error else errStr }

/-- A shot row with its `updated_at` column blanked, for comparing all other columns. -/
def Shot.sansUpdatedAt (s : Shot) : Shot := { s with UpdatedAt := 0 }

/-- Whether an element of `result.shots` unmarshals into a `workerShot`. -/
def decodable (e : JVal) : Bool := (decodeWorkerShot e).isSome

/-- Whether an object key names one of the three fields of `workerShot`. -/
def fieldKey (key : String) : Bool :=
  keyMatches key "title" || keyMatches key "description" || keyMatches key "prompt"

/-- Whether a JSON value can be stored into a Go `string` field: a string, or `null`. -/
def JVal.isStrOrNull : JVal → Bool
  | .str _ => true
  | .null => true
  | _ => false

/-- An element carrying the prompt `p` in the plain sense: an object whose key `prompt`
holds the string `p`, any other letter-case spelling of that key holding the same string. -/
def HasPrompt (e : JVal) (p : String) : Prop :=
  ∃ kvs, e = .obj kvs ∧ ("prompt", JVal.str p) ∈ kvs ∧
    ∀ kv ∈ kvs, keyMatches kv.1 "prompt" = true → kv.2 = .str p

/-- The shots the loop appends when it stands at index `i` with `k` shots already built. -/
def buildFrom (uuid : Nat → String) (projectID : String) : Nat → Nat → List JVal → List Shot
  | _, _, [] => []
  | i, k, e :: rest =>
    match decodeWorkerShot e with
    | none => buildFrom uuid projectID (i + 1) k rest
    | some ws => newShot (uuid k) projectID ws.Prompt i :: buildFrom uuid projectID (i + 1) (k + 1) rest

/-! ## Sample data -/

/-- A world whose worker gives the same outcome to every request; the clock reads 100, 101,
102 and the identifiers are u0, u1, ...; the batch insert succeeds. -/
def sampleWorld (out : HttpOutcome) : World :=
  { clock := fun k => 100 + k, uuid := fun k => "u" ++ toString k, post := fun _ => out,
    createErr := none }

/-- A fresh storyboard task. -/
def sbTask : Task :=
  ⟨"t1", "p1", "", "storyboard", "pending", .map [("story_text", .str "once")], .nil, "", 1, 1⟩

/-- A fresh shot-generation task for Shot `S1`. -/
def sgTask : Task :=
  ⟨"t2", "p1", "S1", "shot_generation", "pending", .map [("prompt", .str "a cat")], .nil, "", 1, 1⟩

/-- An authored shot. -/
def shotS1 : Shot :=
  ⟨"S1", "p1", 0, "T", "D", "a cat", "", "pending", "", "", "crossfade", 3000, 1, 1⟩

/-- A store with the two fresh tasks and the authored shot. -/
def sampleDB : DB := ⟨[sbTask, sgTask], [shotS1]⟩

/-- A storyboard task that already succeeded and carries a result. -/
def doneTask : Task :=
  ⟨"t1", "p1", "", "storyboard", "success", .map [("story_text", .str "once")],
    .map [("shots", .arr [])], "", 1, 7⟩

/-- The sample store with task `t1` already successful. -/
def doneDB : DB := ⟨[doneTask, sgTask], [shotS1]⟩

/-- A shot-generation task left Failed by an earlier transport failure. -/
def retriedTask : Task :=
  ⟨"t2", "p1", "S1", "shot_generation", "failed", .map [("prompt", .str "a cat")], .nil,
    "Worker connection error: down", 1, 8⟩

/-- The sample store with task `t2` failed by a transport failure. -/
def retriedDB : DB := ⟨[sbTask, retriedTask], [shotS1]⟩

/-- A worker result whose `shots` list has an undecodable element first. -/
def gapResult : JSONMap :=
  .map [("shots", .arr [.obj [("prompt", .num 7)], .obj [("prompt", .str "A")]])]

/-- The spec's storyboard result: two well-formed shots. -/
def abResult : JSONMap :=
  .map [("shots", .arr [.obj [("prompt", .str "A")], .obj [("prompt", .str "B")]])]

/-- A worker result whose single shot is an object with a string prompt and a numeric
title. -/
def badTitleResult : JSONMap :=
  .map [("shots", .arr [.obj [("prompt", .str "A"), ("title", .num 7)]])]

/-- The spec's shot-generation result: one image location. -/
def imgResult : JSONMap := .map [("images", .arr [.str "http://x/img.png"])]

/-- A world whose worker cannot be reached. -/
def idleWorld : World := sampleWorld (.connErr "down")

/-- A worker that answers every request with HTTP 200, `success` and two shots A and B. -/
def abWorld : World := sampleWorld (.response 200 (.ok ⟨"success", abResult, ""⟩))

/-- A worker that answers every request with HTTP 200, `success` and one image location. -/
def imgWorld : World := sampleWorld (.response 200 (.ok ⟨"success", imgResult, ""⟩))

/-- The world of a later delivery: the same worker outcome for every request, later clock
readings 200, 201, 202 and further fresh identifiers v0, v1, ... -/
def laterWorld (out : HttpOutcome) : World :=
  { clock := fun k => 200 + k, uuid := fun k => "v" ++ toString k, post := fun _ => out,
    createErr := none }

/-! ## Lemmas on the store primitives -/

theorem First_ID {db : DB} {id : String} {t : Task} (h : db.First id = some t) : t.ID = id := by
  unfold DB.First at h
  have := List.find?_some h
  simpa using this

theorem First_congr {db1 db2 : DB} (h : db1.tasks = db2.tasks) (id : String) :
    db1.First id = db2.First id := by
  unfold DB.First
  rw [h]

theorem find_map_keepID (f : Task → Task) (hf : ∀ t, (f t).ID = t.ID) (id id' : String)
    (l : List Task) :
    (l.map (fun t => if t.ID = id then f t else t)).find? (fun t => t.ID = id')
      = (l.find? (fun t => t.ID = id')).map (fun t => if t.ID = id then f t else t) := by
  rw [List.find?_map]
  congr 1
  apply congrArg (fun p => List.find? p l)
  funext t
  by_cases h : t.ID = id <;> simp [h, hf]

theorem updateStatus_tasks (db : DB) (now : Nat) (id status : String) (result : JSONMap)
    (errStr : String) :
    (updateStatus db now id status result errStr).tasks
      = db.tasks.map (fun t => if t.ID = id then t.written now status result errStr else t) := by
  unfold updateStatus DB.updatesTask
  cases result <;> by_cases he : errStr = "" <;>
    simp [he, TaskUpdates.apply, Task.written]

theorem updateStatus_shots (db : DB) (now : Nat) (id status : String) (result : JSONMap)
    (errStr : String) :
    (updateStatus db now id status result errStr).shots = db.shots := by
  unfold updateStatus DB.updatesTask
  rfl

theorem updateStatus_First (db : DB) (now : Nat) (id status : String) (result : JSONMap)
    (errStr : String) :
    (updateStatus db now id status result errStr).First id
      = (db.First id).map (fun t => t.written now status result errStr) := by
  unfold DB.First
  rw [updateStatus_tasks,
    find_map_keepID (fun t => t.written now status result errStr) (fun t => rfl)]
  cases h : db.tasks.find? (fun t => t.ID = id) with
  | none => rfl
  | some t =>
    have := List.find?_some h
    simp at this
    simp [this]

/-! ## Lemmas on the reconcilers and the handler -/

theorem handleShotUpdate_tasks (db : DB) (now : Nat) (shotID : String) (result : JSONMap) :
    (handleShotUpdate db now shotID result).tasks = db.tasks := by
  unfold handleShotUpdate
  split
  · rfl
  · dsimp only
    split <;> rfl

theorem handleStoryboardCreation_tasks (w : World) (db : DB) (taskID projectID : String)
    (result : JSONMap) :
    (handleStoryboardCreation w db taskID projectID result).1.tasks = db.tasks := by
  unfold handleStoryboardCreation
  split
  · rfl
  · dsimp only
    split
    · split <;> rfl
    · rfl
  · rfl

theorem reconcile_tasks (w : World) (db : DB) (task : Task) (result : JSONMap) :
    (reconcile w db task result).1.tasks = db.tasks := by
  unfold reconcile
  split
  · exact handleShotUpdate_tasks _ _ _ _
  · split
    · have h := handleStoryboardCreation_tasks w db task.ID task.ProjectID result
      split <;> rename_i heq <;> rw [heq] at h <;> exact h
    · rfl

theorem handle_loaded (w : World) (db : DB) (id : String) (task : Task)
    (h : db.First id = some task) :
    HandleGenerateTask w db (.ok ⟨id⟩)
      = dispatchLoaded w (updateStatus db (w.clock 0) id TaskStatusProcessing .nil "") task := by
  unfold HandleGenerateTask loadAndMarkProcessing
  simp only [h, First_ID h]

theorem dispatch_transport (w : World) (db : DB) (task : Task) (err : GoError)
    (h : callWorker w (workerReq task) = .error err) :
    dispatchLoaded w db task
      = (some err, updateStatus db (w.clock 2) task.ID TaskStatusFailed .nil
          ("Worker connection error: " ++ err.msg)) := by
  unfold dispatchLoaded
  rw [h]

theorem dispatch_logical (w : World) (db : DB) (task : Task) (resp : WorkerResponse)
    (h : callWorker w (workerReq task) = .ok resp) (hs : resp.Status ≠ "success") :
    dispatchLoaded w db task
      = (none, updateStatus db (w.clock 2) task.ID TaskStatusFailed .nil resp.Error) := by
  unfold dispatchLoaded
  rw [h]
  simp only [hs, ne_eq, not_false_eq_true, if_true]

theorem dispatch_reconcile_err (w : World) (db : DB) (task : Task) (resp : WorkerResponse)
    (h : callWorker w (workerReq task) = .ok resp) (hs : resp.Status = "success")
    (pe : GoError) (hr : (reconcile w db task resp.Result).2 = some pe) :
    dispatchLoaded w db task
      = (none, updateStatus (reconcile w db task resp.Result).1 (w.clock 2) task.ID
          TaskStatusFailed resp.Result pe.msg) := by
  unfold dispatchLoaded
  rw [h]
  simp only [hs, ne_eq, not_true_eq_false, if_false]
  split <;> rename_i heq <;> rw [heq] at hr <;> simp at hr
  subst hr
  rw [heq]

theorem dispatch_reconcile_ok (w : World) (db : DB) (task : Task) (resp : WorkerResponse)
    (h : callWorker w (workerReq task) = .ok resp) (hs : resp.Status = "success")
    (hr : (reconcile w db task resp.Result).2 = none) :
    dispatchLoaded w db task
      = (none, updateStatus (reconcile w db task resp.Result).1 (w.clock 2) task.ID
          TaskStatusSuccess resp.Result "") := by
  unfold dispatchLoaded
  rw [h]
  simp only [hs, ne_eq, not_true_eq_false, if_false]
  split <;> rename_i heq <;> rw [heq] at hr <;> simp at hr
  rw [heq]

/-- The task row after a final write that follows the Processing write and a reconciler. -/
theorem final_First (w : World) (db dbr : DB) (id : String) (task : Task)
    (h : db.First id = some task)
    (hr : dbr.tasks = (updateStatus db (w.clock 0) id TaskStatusProcessing .nil "").tasks)
    (status : String) (result : JSONMap) (errStr : String) :
    (updateStatus dbr (w.clock 2) task.ID status result errStr).First id
      = some ((task.written (w.clock 0) TaskStatusProcessing .nil "").written (w.clock 2)
          status result errStr) := by
  rw [First_ID h, updateStatus_First, First_congr hr, updateStatus_First, h]
  rfl

/-! ## updateStatus (C10) -/

/-- C10, as stated, fails: an empty but non-nil result map handed to `updateStatus`
replaces the stored result. Task `t1` holds a non-empty result before the call and the
empty map after it. -/
theorem updateStatus_empty_map_overwrites :
    JSONMap.nonEmpty (.map []) = false ∧
    (doneDB.First "t1").map Task.Result = some (.map [("shots", .arr [])]) ∧
    (doneDB.First "t1").map Task.resultSet = some true ∧
    ((updateStatus doneDB 9 "t1" "success" (.map []) "").First "t1").map Task.Result
      = some (.map []) ∧
    ((updateStatus doneDB 9 "t1" "success" (.map []) "").First "t1").map Task.resultSet
      = some false :=
  ⟨rfl, rfl, rfl, rfl, rfl⟩

/-- C10 (amended): `updateStatus` leaves the shot table alone and rewrites exactly the task
rows with the given id: status and `updated_at` are always set, the result is replaced iff
the given map is non-nil (an empty non-nil map does replace it), the error is replaced iff
the given string is non-empty; all other columns and all other rows are kept. -/
theorem updateStatus_effect (db : DB) (now : Nat) (id status : String) (result : JSONMap)
    (errStr : String) :
    (updateStatus db now id status result errStr).shots = db.shots ∧
    (updateStatus db now id status result errStr).tasks
      = db.tasks.map (fun t =>
          if t.ID = id then
            { t with
              Status := status
              UpdatedAt := now
              Result := match result with
                | .nil => t.Result
                | .map kvs => .map kvs
              Error := if errStr = "" then t.Error else errStr }
          else t) :=
  ⟨updateStatus_shots db now id status result errStr,
    updateStatus_tasks db now id status result errStr⟩

/-! ## The terminal status and the stored result (C1) -/

theorem failed_ne_success : TaskStatusFailed ≠ TaskStatusSuccess := by decide

theorem decodeField_flag (acc : workerShot × Bool) (kv : String × JVal) :
    (decodeField acc kv).2 = (acc.2 || (fieldKey kv.1 && !kv.2.isStrOrNull)) := by
  unfold decodeField fieldKey
  by_cases h1 : keyMatches kv.1 "title" = true
  · cases hv : kv.2 <;> simp [h1, JVal.isStrOrNull]
  · by_cases h2 : keyMatches kv.1 "description" = true
    · cases hv : kv.2 <;> simp [h1, h2, JVal.isStrOrNull]
    · by_cases h3 : keyMatches kv.1 "prompt" = true
      · cases hv : kv.2 <;> simp [h1, h2, h3, JVal.isStrOrNull]
      · simp [h1, h2, h3]

theorem foldl_decodeField_flag (kvs : List (String × JVal)) :
    ∀ acc : workerShot × Bool,
      (kvs.foldl decodeField acc).2
        = (acc.2 || kvs.any (fun kv => fieldKey kv.1 && !kv.2.isStrOrNull)) := by
  induction kvs with
  | nil => intro acc; simp
  | cons kv rest ih =>
    intro acc
    rw [List.foldl_cons, ih, decodeField_flag, List.any_cons, Bool.or_assoc]

/-- An object decodes exactly when every key naming `title`, `description` or `prompt`
(case-insensitively) holds a string or `null`; other keys are ignored. -/
theorem decodable_obj_iff (kvs : List (String × JVal)) :
    decodable (.obj kvs) = true
      ↔ ∀ kv ∈ kvs, fieldKey kv.1 = true → kv.2.isStrOrNull = true := by
  unfold decodable decodeWorkerShot
  have hflag := foldl_decodeField_flag kvs (⟨"", "", ""⟩, false)
  simp only [Bool.false_or] at hflag
  constructor
  · intro hd kv hkv hk
    by_contra hn
    have hany : kvs.any (fun kv => fieldKey kv.1 && !kv.2.isStrOrNull) = true := by
      rw [List.any_eq_true]
      exact ⟨kv, hkv, by simp [hk, hn]⟩
    rw [← hflag] at hany
    simp [hany] at hd
  · intro hall
    have hany : kvs.any (fun kv => fieldKey kv.1 && !kv.2.isStrOrNull) = false := by
      rw [List.any_eq_false]
      intro kv hkv
      by_cases hk : fieldKey kv.1 = true
      · simp [hk, hall kv hkv hk]
      · simp [hk]
    rw [← hflag] at hany
    simp [hany]

/-- A string, a number, a list and an object whose prompt is a number do not decode; `null`,
an object without the three keys, and an object spelling the key `Prompt` do. -/
theorem decode_examples :
    decodable (.str "x") = false ∧ decodable (.num 3) = false ∧ decodable (.arr []) = false ∧
    decodable (.obj [("prompt", .num 3)]) = false ∧
    decodable (.obj [("prompt", .str "A"), ("title", .bool true)]) = false ∧
    decodeWorkerShot .null = some ⟨"", "", ""⟩ ∧
    decodeWorkerShot (.obj [("id", .num 1)]) = some ⟨"", "", ""⟩ ∧
    decodeWorkerShot (.obj [("Prompt", .str "A")]) = some ⟨"", "", "A"⟩ :=
  ⟨rfl, rfl, rfl, rfl, rfl, rfl, rfl, rfl⟩

theorem prompt_key_not_other (key : String) (h : keyMatches key "prompt" = true) :
    keyMatches key "title" = false ∧ keyMatches key "description" = false := by
  unfold keyMatches at *
  simp only [decide_eq_true_eq] at h
  rw [h]
  exact ⟨by decide, by decide⟩

theorem decodeField_prompt (acc : workerShot × Bool) (kv : String × JVal) :
    (decodeField acc kv).1.Prompt
      = if keyMatches kv.1 "prompt" = true then
          (match kv.2 with
            | .str s => s
            | _ => acc.1.Prompt)
        else acc.1.Prompt := by
  unfold decodeField
  by_cases h3 : keyMatches kv.1 "prompt" = true
  · obtain ⟨h1, h2⟩ := prompt_key_not_other kv.1 h3
    cases hv : kv.2 <;> simp [h1, h2, h3]
  · by_cases h1 : keyMatches kv.1 "title" = true
    · cases hv : kv.2 <;> simp [h1, h3]
    · by_cases h2 : keyMatches kv.1 "description" = true
      · cases hv : kv.2 <;> simp [h1, h2, h3]
      · simp [h1, h2, h3]

theorem foldl_decodeField_prompt (p : String) (kvs : List (String × JVal))
    (hp : ∀ kv ∈ kvs, keyMatches kv.1 "prompt" = true → kv.2 = .str p) :
    ∀ acc : workerShot × Bool,
      (kvs.foldl decodeField acc).1.Prompt
        = if kvs.any (fun kv => keyMatches kv.1 "prompt") = true then p else acc.1.Prompt := by
  induction kvs with
  | nil => intro acc; simp
  | cons kv rest ih =>
    intro acc
    rw [List.foldl_cons, ih (fun x hx => hp x (List.mem_cons_of_mem _ hx)), decodeField_prompt,
      List.any_cons]
    by_cases h3 : keyMatches kv.1 "prompt" = true
    · have hv := hp kv (List.mem_cons_self _ _) h3
      simp [h3, hv]
    · have h4 : keyMatches kv.1 "prompt" = false := by simpa using h3
      rw [if_neg h3, h4, Bool.false_or]

/-- The prompt decoded from an object whose key `prompt` holds the string `p`, no other
spelling of that key holding anything else. -/
theorem decode_prompt_of_key (p : String) (kvs : List (String × JVal)) (ws : workerShot)
    (hmem : ("prompt", JVal.str p) ∈ kvs)
    (hp : ∀ kv ∈ kvs, keyMatches kv.1 "prompt" = true → kv.2 = .str p)
    (hd : decodeWorkerShot (.obj kvs) = some ws) : ws.Prompt = p := by
  unfold decodeWorkerShot at hd
  have hf := foldl_decodeField_prompt p kvs hp (⟨"", "", ""⟩, false)
  have hany : kvs.any (fun kv => keyMatches kv.1 "prompt") = true := by
    rw [List.any_eq_true]
    exact ⟨_, hmem, rfl⟩
  rw [hany] at hf
  simp only [if_true] at hf
  by_cases hb : (kvs.foldl decodeField (⟨"", "", ""⟩, false)).2 = true
  · simp [hb] at hd
  · simp [hb] at hd
    rw [← hd]
    exact hf

/-! ## The storyboard reconciler (C2) -/

theorem storyboardLoop_eq (uuid : Nat → String) (projectID : String) (l : List JVal) :
    ∀ (i : Nat) (acc : List Shot),
      storyboardLoop uuid projectID i l acc = acc ++ buildFrom uuid projectID i acc.length l := by
  induction l with
  | nil => intro i acc; simp [storyboardLoop, buildFrom]
  | cons e rest ih =>
    intro i acc
    unfold storyboardLoop buildFrom
    cases hd : decodeWorkerShot e with
    | none => simpa using ih (i + 1) acc
    | some ws => simpa using ih (i + 1) (acc ++ [newShot (uuid acc.length) projectID ws.Prompt i])

theorem buildFrom_length (uuid : Nat → String) (projectID : String) (l : List JVal) :
    ∀ (i k : Nat), (buildFrom uuid projectID i k l).length = l.countP decodable := by
  induction l with
  | nil => intro i k; rfl
  | cons e rest ih =>
    intro i k
    unfold buildFrom
    cases hd : decodeWorkerShot e with
    | none => simp [List.countP_cons, decodable, hd, ih]
    | some ws => simp [List.countP_cons, decodable, hd, ih]

theorem buildFrom_orders (uuid : Nat → String) (projectID : String) (l : List JVal) :
    ∀ (i k : Nat), (buildFrom uuid projectID i k l).map (fun s => s.Order)
      = ((l.enumFrom i).filter (fun p => decodable p.2)).map (fun p => (p.1 : Int)) := by
  induction l with
  | nil => intro i k; rfl
  | cons e rest ih =>
    intro i k
    unfold buildFrom
    cases hd : decodeWorkerShot e with
    | none => simp [List.enumFrom_cons, List.filter_cons, decodable, hd, ih]
    | some ws => simp [List.enumFrom_cons, List.filter_cons, decodable, hd, ih, newShot]

theorem buildFrom_prompts (uuid : Nat → String) (projectID : String) (l : List JVal) :
    ∀ (i k : Nat), (buildFrom uuid projectID i k l).map (fun s => s.Prompt)
      = l.filterMap (fun e => (decodeWorkerShot e).map (fun ws => ws.Prompt)) := by
  induction l with
  | nil => intro i k; rfl
  | cons e rest ih =>
    intro i k
    unfold buildFrom
    cases hd : decodeWorkerShot e with
    | none => simp [List.filterMap_cons, hd, ih]
    | some ws => simp [List.filterMap_cons, hd, ih, newShot]

theorem buildFrom_lower (uuid : Nat → String) (projectID : String) (l : List JVal) :
    ∀ (i k : Nat), ∀ s ∈ buildFrom uuid projectID i k l, (i : Int) ≤ s.Order := by
  induction l with
  | nil => intro i k s hs; simp [buildFrom] at hs
  | cons e rest ih =>
    intro i k s hs
    unfold buildFrom at hs
    cases hd : decodeWorkerShot e with
    | none =>
      rw [hd] at hs
      have := ih (i + 1) k s hs
      push_cast at this
      omega
    | some ws =>
      rw [hd] at hs
      rcases List.mem_cons.mp hs with h1 | h1
      · subst h1; simp [newShot]
      · have := ih (i + 1) (k + 1) s h1
        push_cast at this
        omega

theorem buildFrom_increasing (uuid : Nat → String) (projectID : String) (l : List JVal) :
    ∀ (i k : Nat), (buildFrom uuid projectID i k l).Pairwise (fun a b => a.Order < b.Order) := by
  induction l with
  | nil => intro i k; simp [buildFrom]
  | cons e rest ih =>
    intro i k
    unfold buildFrom
    cases hd : decodeWorkerShot e with
    | none => exact ih (i + 1) k
    | some ws =>
      refine List.pairwise_cons.mpr ⟨?_, ih (i + 1) (k + 1)⟩
      intro s hs
      have := buildFrom_lower uuid projectID rest (i + 1) (k + 1) s hs
      push_cast at this
      simp only [newShot]
      omega

/-- The store and error `handleStoryboardCreation` returns for a list under `shots` when the
batch insert does not fail. -/
theorem handleStoryboardCreation_list (w : World) (db : DB) (taskID projectID : String)
    (result : JSONMap) (l : List JVal) (hl : result.get "shots" = some (.arr l))
    (hc : w.createErr = none) :
    handleStoryboardCreation w db taskID projectID result
      = (⟨db.tasks, db.shots ++ (buildFrom w.uuid projectID 0 0 l).map
          (Shot.inserted (w.clock 1))⟩, none) := by
  unfold handleStoryboardCreation
  rw [hl]
  simp only [storyboardLoop_eq, List.nil_append, List.length_nil, hc]
  split
  · rfl
  · rename_i hlen
    have : buildFrom w.uuid projectID 0 0 l = [] := by
      cases hb : buildFrom w.uuid projectID 0 0 l with
      | nil => rfl
      | cons a t => rw [hb] at hlen; simp at hlen
    rw [this]
    simp

/-- C2, as stated, fails: with an undecodable element (an object whose prompt is a number)
before a well-formed one, exactly one Shot is created and its order is 1, the index of its
element in the worker's list, not 0. -/
theorem order_keeps_list_index :
    decodable (.obj [("prompt", .num 7)]) = false ∧
    decodable (.obj [("prompt", .str "A")]) = true ∧
    (handleStoryboardCreation idleWorld ⟨[], []⟩ "t1" "p1" gapResult).2.isNone = true ∧
    (handleStoryboardCreation idleWorld ⟨[], []⟩ "t1" "p1" gapResult).1.shots.map
      (fun s => (s.Order, s.Prompt)) = [(1, "A")] :=
  ⟨rfl, rfl, rfl, rfl⟩

/-- C2 (amended): for every list under `result.shots`, when the batch insert does not fail,
`handleStoryboardCreation` appends one Shot per element that decodes, in the worker's order,
with the element's prompt; the order of a Shot is the index of its element in the worker's
list (undecodable elements counted), so the orders are strictly increasing, and they are
exactly 0, 1, ..., n-1 when every element decodes. -/
theorem storyboard_orders_are_list_indices (w : World) (db : DB) (taskID projectID : String)
    (result : JSONMap) (l : List JVal) (hl : result.get "shots" = some (.arr l))
    (hc : w.createErr = none) :
    ∃ created : List Shot,
      handleStoryboardCreation w db taskID projectID result
        = (⟨db.tasks, db.shots ++ created⟩, none) ∧
      created.length = l.countP decodable ∧
      created.map (fun s => s.Prompt)
        = l.filterMap (fun e => (decodeWorkerShot e).map (fun ws => ws.Prompt)) ∧
      created.map (fun s => s.Order)
        = (l.enum.filter (fun p => decodable p.2)).map (fun p => (p.1 : Int)) ∧
      created.Pairwise (fun a b => a.Order < b.Order) ∧
      ((∀ e ∈ l, decodable e = true) →
        created.map (fun s => s.Order) = (List.range l.length).map (fun (i : Nat) => (i : Int))) := by
  refine ⟨(buildFrom w.uuid projectID 0 0 l).map (Shot.inserted (w.clock 1)),
    handleStoryboardCreation_list w db taskID projectID result l hl hc, ?_, ?_, ?_, ?_, ?_⟩
  · simp [buildFrom_length]
  · rw [List.map_map]
    exact buildFrom_prompts w.uuid projectID l 0 0
  · rw [List.map_map]
    exact buildFrom_orders w.uuid projectID l 0 0
  · rw [List.pairwise_map]
    exact buildFrom_increasing w.uuid projectID l 0 0
  · intro hall
    rw [List.map_map]
    have h2 : (l.enumFrom 0).filter (fun p => decodable p.2) = l.enumFrom 0 := by
      apply List.filter_eq_self.mpr
      intro p hp
      exact hall p.2 (List.snd_mem_of_mem_enumFrom hp)
    have h3 := buildFrom_orders w.uuid projectID l 0 0
    rw [h2] at h3
    change (buildFrom w.uuid projectID 0 0 l).map (fun s => s.Order) = _
    rw [h3, List.range_eq_range', ← List.enumFrom_map_fst 0 l, List.map_map]
    rfl

/-- Witness for C2: the list with an undecodable element first. -/
theorem storyboard_orders_are_list_indices_witness :
    gapResult.get "shots"
        = some (.arr [.obj [("prompt", .num 7)], .obj [("prompt", .str "A")]]) ∧
      idleWorld.createErr = none ∧
      ∃ created : List Shot,
        handleStoryboardCreation idleWorld sampleDB "t1" "p1" gapResult
          = (⟨sampleDB.tasks, sampleDB.shots ++ created⟩, none) ∧
        created.length
          = [JVal.obj [("prompt", .num 7)], .obj [("prompt", .str "A")]].countP decodable ∧
        created.map (fun s => s.Prompt)
          = [JVal.obj [("prompt", .num 7)], .obj [("prompt", .str "A")]].filterMap
              (fun e => (decodeWorkerShot e).map (fun ws => ws.Prompt)) ∧
        created.map (fun s => s.Order)
          = ([JVal.obj [("prompt", .num 7)], .obj [("prompt", .str "A")]].enum.filter
              (fun p => decodable p.2)).map (fun p => (p.1 : Int)) ∧
        created.Pairwise (fun a b => a.Order < b.Order) ∧
        ((∀ e ∈ [JVal.obj [("prompt", .num 7)], .obj [("prompt", .str "A")]],
            decodable e = true) →
          created.map (fun s => s.Order)
            = (List.range [JVal.obj [("prompt", .num 7)],
                .obj [("prompt", .str "A")]].length).map (fun (i : Nat) => (i : Int))) :=
  ⟨rfl, rfl,
    storyboard_orders_are_list_indices idleWorld sampleDB "t1" "p1" gapResult _ rfl rfl⟩

/-! ## Storyboard tasks through the handler (C3, C4) -/

theorem storyboard_ne_shotGen : ¬ TaskTypeStoryboard = TaskTypeShotGen := by decide

theorem reconcile_storyboard (w : World) (db : DB) (task : Task) (result : JSONMap)
    (ht : task.Type_ = TaskTypeStoryboard) :
    reconcile w db task result
      = match handleStoryboardCreation w db task.ID task.ProjectID result with
        | (db, some err) => (db, some ⟨"failed to create shots: " ++ err.msg, false⟩)
        | (db, none) => (db, none) := by
  unfold reconcile
  rw [ht]
  simp only [storyboard_ne_shotGen, if_false, if_true]

theorem handleStoryboardCreation_bad (w : World) (db : DB) (taskID projectID : String)
    (result : JSONMap) (hbad : ∀ l, result.get "shots" ≠ some (.arr l)) :
    ∃ err, handleStoryboardCreation w db taskID projectID result = (db, some err) := by
  unfold handleStoryboardCreation
  split
  · exact ⟨_, rfl⟩
  · rename_i l heq
    exact absurd heq (hbad l)
  · exact ⟨_, rfl⟩

theorem append_ne_empty (a b : String) (ha : a ≠ "") : a ++ b ≠ "" := by
  intro h
  apply ha
  have h1 : (a ++ b).data = [] := by rw [h]
  rw [String.data_append] at h1
  have h2 : a.data = [] := (List.append_eq_nil.mp h1).1
  exact String.ext h2

theorem buildFrom_all (uuid : Nat → String) (projectID : String) (l : List JVal)
    (hall : ∀ e ∈ l, decodable e = true) :
    ∀ (i k j : Nat) (e : JVal), l[j]? = some e →
      ∃ ws, decodeWorkerShot e = some ws ∧
        (buildFrom uuid projectID i k l)[j]?
          = some (newShot (uuid (k + j)) projectID ws.Prompt (i + j)) := by
  induction l with
  | nil => intro i k j e he; simp at he
  | cons a rest ih =>
    intro i k j e he
    have ha : decodable a = true := hall a (List.mem_cons_self _ _)
    unfold decodable at ha
    obtain ⟨wa, hwa⟩ := Option.isSome_iff_exists.mp ha
    unfold buildFrom
    rw [hwa]
    cases j with
    | zero =>
      simp at he
      subst he
      exact ⟨wa, hwa, by simp⟩
    | succ j =>
      simp at he
      obtain ⟨ws, h1, h2⟩ := ih (fun x hx => hall x (List.mem_cons_of_mem _ hx)) (i + 1) (k + 1)
        j e he
      refine ⟨ws, h1, ?_⟩
      have e1 : k + 1 + j = k + (j + 1) := by omega
      have e2 : i + 1 + j = i + (j + 1) := by omega
      rw [e1, e2] at h2
      simpa using h2

theorem countP_all (l : List JVal) (hall : ∀ e ∈ l, decodable e = true) :
    l.countP decodable = l.length :=
  List.countP_eq_length.mpr hall

/-- C3, as stated, fails in its last clause: storyboard task `t1` already holds a result;
the worker answers `success` with no result at all (so no `shots` key); the handler returns
nil, the task ends Failed, and its stored result is the old one, not the worker's. -/
theorem nil_result_keeps_stored_result :
    (JSONMap.nil).get "shots" = none ∧
    (doneDB.First "t1").map (fun t => (t.Type_, t.resultSet)) = some ("storyboard", true) ∧
    (HandleGenerateTask (sampleWorld (.response 200 (.ok ⟨"success", .nil, ""⟩))) doneDB
      (.ok ⟨"t1"⟩)).1.isNone = true ∧
    ((HandleGenerateTask (sampleWorld (.response 200 (.ok ⟨"success", .nil, ""⟩))) doneDB
      (.ok ⟨"t1"⟩)).2.First "t1").map (fun t => (t.Status, t.resultSet))
      = some ("failed", true) ∧
    ((HandleGenerateTask (sampleWorld (.response 200 (.ok ⟨"success", .nil, ""⟩))) doneDB
      (.ok ⟨"t1"⟩)).2.First "t1").map Task.Result = some (.map [("shots", .arr [])]) ∧
    JSONMap.nonEmpty .nil = false :=
  ⟨rfl, rfl, rfl, rfl, rfl, rfl⟩

/-- C3 (amended): when the key `shots` is absent from the worker's result or is not a list,
`handleStoryboardCreation` returns an error and leaves the store as it was; and for a
Storyboard task whose worker response has status `success` with such a result,
`HandleGenerateTask` returns nil, leaves the Shot table unchanged, and the task ends Failed
with a non-empty error and with the worker's result stored when that result is non-nil (a
nil result leaves the stored result as it was). -/
theorem malformed_shots_fail_task (w : World) (db : DB) (id : String) (task : Task)
    (resp : WorkerResponse) (hbad : ∀ l, resp.Result.get "shots" ≠ some (.arr l)) :
    (∀ (db0 : DB) (taskID projectID : String),
      ∃ err, handleStoryboardCreation w db0 taskID projectID resp.Result = (db0, some err)) ∧
    (db.First id = some task → task.Type_ = TaskTypeStoryboard →
      callWorker w (workerReq task) = .ok resp → resp.Status = "success" →
      (HandleGenerateTask w db (.ok ⟨id⟩)).1 = none ∧
      (HandleGenerateTask w db (.ok ⟨id⟩)).2.shots = db.shots ∧
      ∃ t, (HandleGenerateTask w db (.ok ⟨id⟩)).2.First id = some t ∧
        t.Status = TaskStatusFailed ∧ t.Error ≠ "" ∧
        t.Result = (match resp.Result with
          | .nil => task.Result
          | .map kvs => .map kvs)) := by
  refine ⟨fun db0 taskID projectID =>
    handleStoryboardCreation_bad w db0 taskID projectID resp.Result hbad, ?_⟩
  intro h ht hc hs
  obtain ⟨err, herr⟩ := handleStoryboardCreation_bad w
    (updateStatus db (w.clock 0) id TaskStatusProcessing .nil "") task.ID task.ProjectID
    resp.Result hbad
  have hrec : reconcile w (updateStatus db (w.clock 0) id TaskStatusProcessing .nil "") task
      resp.Result
      = (updateStatus db (w.clock 0) id TaskStatusProcessing .nil "",
          some ⟨"failed to create shots: " ++ err.msg, false⟩) := by
    rw [reconcile_storyboard _ _ _ _ ht, herr]
  rw [handle_loaded w db id task h,
    dispatch_reconcile_err _ _ _ _ hc hs _ (by rw [hrec]), hrec]
  refine ⟨rfl, ?_, _, final_First w db _ id task h rfl _ _ _, rfl, ?_, ?_⟩
  · simp only [updateStatus_shots]
  · have hne := append_ne_empty "failed to create shots: " err.msg (by decide)
    simp only [Task.written]
    rw [if_neg hne]
    exact hne
  · cases resp.Result <;> rfl

/-- Witness for C3: the fresh storyboard task `t1`, the worker answering `success` with a
result whose `shots` is a string. -/
theorem malformed_shots_fail_task_witness :
    (∀ l, (WorkerResponse.mk "success" (.map [("shots", .str "none")]) "").Result.get "shots"
      ≠ some (.arr l)) ∧
    sampleDB.First "t1" = some sbTask ∧ sbTask.Type_ = TaskTypeStoryboard ∧
    (HandleGenerateTask
        (sampleWorld (.response 200 (.ok ⟨"success", .map [("shots", .str "none")], ""⟩)))
        sampleDB (.ok ⟨"t1"⟩)).1 = none ∧
    (HandleGenerateTask
        (sampleWorld (.response 200 (.ok ⟨"success", .map [("shots", .str "none")], ""⟩)))
        sampleDB (.ok ⟨"t1"⟩)).2.shots = sampleDB.shots ∧
    ∃ t, (HandleGenerateTask
        (sampleWorld (.response 200 (.ok ⟨"success", .map [("shots", .str "none")], ""⟩)))
        sampleDB (.ok ⟨"t1"⟩)).2.First "t1" = some t ∧
      t.Status = TaskStatusFailed ∧ t.Error ≠ "" ∧
      t.Result = .map [("shots", .str "none")] :=
  ⟨(fun l hl => by cases hl), rfl, rfl,
    (malformed_shots_fail_task
      (sampleWorld (.response 200 (.ok ⟨"success", .map [("shots", .str "none")], ""⟩)))
      sampleDB "t1" sbTask ⟨"success", .map [("shots", .str "none")], ""⟩
      (fun l hl => by cases hl)).2 rfl rfl rfl rfl⟩

/-- An object with the single key `prompt` holding a string decodes to that prompt. -/
theorem decode_prompt_object (p : String) :
    decodeWorkerShot (.obj [("prompt", .str p)]) = some ⟨"", "", p⟩ := rfl

/-- An object with string `title`, `description` and `prompt` decodes to those fields. -/
theorem decode_full_object (t d p : String) :
    decodeWorkerShot (.obj [("description", .str d), ("prompt", .str p), ("title", .str t)])
      = some ⟨t, d, p⟩ := rfl

/-- C4, as stated, fails: the single element of `result.shots` is an object with the string
prompt `A` and a numeric title; it carries its prompt in the plain sense, yet it does not
unmarshal into `workerShot` and the loop skips it. For this list of one such element the
handler returns nil, adds no Shot row and leaves the task in Success. -/
theorem string_prompt_with_bad_title_is_skipped :
    HasPrompt (.obj [("prompt", .str "A"), ("title", .num 7)]) "A" ∧
    decodable (.obj [("prompt", .str "A"), ("title", .num 7)]) = false ∧
    sampleDB.First "t1" = some sbTask ∧ sbTask.Type_ = TaskTypeStoryboard ∧
    (HandleGenerateTask (sampleWorld (.response 200 (.ok ⟨"success", badTitleResult, ""⟩)))
      sampleDB (.ok ⟨"t1"⟩)).1.isNone = true ∧
    (HandleGenerateTask (sampleWorld (.response 200 (.ok ⟨"success", badTitleResult, ""⟩)))
      sampleDB (.ok ⟨"t1"⟩)).2.shots.map (fun s => s.ID) = sampleDB.shots.map (fun s => s.ID) ∧
    (HandleGenerateTask (sampleWorld (.response 200 (.ok ⟨"success", badTitleResult, ""⟩)))
      sampleDB (.ok ⟨"t1"⟩)).2.shots.length = 1 ∧
    ((HandleGenerateTask (sampleWorld (.response 200 (.ok ⟨"success", badTitleResult, ""⟩)))
      sampleDB (.ok ⟨"t1"⟩)).2.First "t1").map (fun t => t.Status) = some "success" := by
  refine ⟨⟨_, rfl, List.mem_cons_self _ _, ?_⟩, rfl, rfl, rfl, rfl, rfl, rfl, rfl⟩
  intro kv hkv hm
  simp only [List.mem_cons, List.mem_singleton, List.not_mem_nil, or_false] at hkv
  rcases hkv with rfl | rfl
  · rfl
  · exact absurd hm (by decide)

/-- C4 (amended): for a Storyboard task and a worker `success` response whose `result.shots`
is a list of n elements that all decode into `workerShot` (a string prompt alone is not
enough: the title and description, where present, must be strings or `null` as well), with
the batch insert succeeding, the handler returns nil and appends exactly n Shot rows; the
i-th (0-based) has order i, the prompt decoded from the i-th element (the string under its
key `prompt` when it has one), the task's project id, status pending and the i-th fresh
identifier; and the task ends Success holding the worker's result. -/
theorem storyboard_happy_path (w : World) (db : DB) (id : String) (task : Task)
    (resp : WorkerResponse) (l : List JVal)
    (h : db.First id = some task) (ht : task.Type_ = TaskTypeStoryboard)
    (hc : callWorker w (workerReq task) = .ok resp) (hs : resp.Status = "success")
    (hl : resp.Result.get "shots" = some (.arr l))
    (hall : ∀ e ∈ l, decodable e = true) (hi : w.createErr = none) :
    (HandleGenerateTask w db (.ok ⟨id⟩)).1 = none ∧
    (∃ added : List Shot,
      (HandleGenerateTask w db (.ok ⟨id⟩)).2.shots = db.shots ++ added ∧
      added.length = l.length ∧
      ∀ (j : Nat) (e : JVal), l[j]? = some e →
        ∃ s ws, added[j]? = some s ∧ decodeWorkerShot e = some ws ∧
          s.Order = (j : Int) ∧ s.Prompt = ws.Prompt ∧ s.ProjectID = task.ProjectID ∧
          s.Status = "pending" ∧ s.ID = w.uuid j ∧ ∀ p, HasPrompt e p → s.Prompt = p) ∧
    ∃ t, (HandleGenerateTask w db (.ok ⟨id⟩)).2.First id = some t ∧
      t.Status = TaskStatusSuccess ∧ t.Result = resp.Result := by
  have hrec : reconcile w (updateStatus db (w.clock 0) id TaskStatusProcessing .nil "") task
      resp.Result
      = (⟨(updateStatus db (w.clock 0) id TaskStatusProcessing .nil "").tasks,
          (updateStatus db (w.clock 0) id TaskStatusProcessing .nil "").shots
            ++ (buildFrom w.uuid task.ProjectID 0 0 l).map (Shot.inserted (w.clock 1))⟩,
          none) := by
    rw [reconcile_storyboard _ _ _ _ ht,
      handleStoryboardCreation_list w _ task.ID task.ProjectID resp.Result l hl hi]
  rw [handle_loaded w db id task h,
    dispatch_reconcile_ok _ _ _ _ hc hs (by rw [hrec]), hrec]
  refine ⟨rfl, ⟨(buildFrom w.uuid task.ProjectID 0 0 l).map (Shot.inserted (w.clock 1)),
    ?_, ?_, ?_⟩, _, final_First w db _ id task h rfl _ _ _, rfl, ?_⟩
  · simp only [updateStatus_shots]
  · rw [List.length_map, buildFrom_length, countP_all l hall]
  · intro j e he
    obtain ⟨ws, h1, h2⟩ := buildFrom_all w.uuid task.ProjectID l hall 0 0 j e he
    refine ⟨Shot.inserted (w.clock 1) (newShot (w.uuid (0 + j)) task.ProjectID ws.Prompt
      (0 + j)), ws, ?_, h1, ?_, rfl, rfl, rfl, ?_, ?_⟩
    · rw [List.getElem?_map, h2]
      rfl
    · simp [Shot.inserted, newShot]
    · simp [Shot.inserted, newShot]
    · rintro p ⟨kvs, rfl, hmem, hp⟩
      exact decode_prompt_of_key p kvs ws hmem hp h1
  · cases hres : resp.Result with
    | nil => rw [hres] at hl; cases hl
    | map kvs => rfl

/-- Witness for C4: the spec's example, two shots with prompts A and B, for task `t1`. -/
theorem storyboard_happy_path_witness :
    sampleDB.First "t1" = some sbTask ∧ sbTask.Type_ = TaskTypeStoryboard ∧
    abResult.get "shots"
      = some (.arr [.obj [("prompt", .str "A")], .obj [("prompt", .str "B")]]) ∧
    (∀ e ∈ [JVal.obj [("prompt", .str "A")], .obj [("prompt", .str "B")]],
      decodable e = true) ∧
    (HandleGenerateTask (sampleWorld (.response 200 (.ok ⟨"success", abResult, ""⟩)))
      sampleDB (.ok ⟨"t1"⟩)).1 = none ∧
    (∃ added : List Shot,
      (HandleGenerateTask (sampleWorld (.response 200 (.ok ⟨"success", abResult, ""⟩)))
        sampleDB (.ok ⟨"t1"⟩)).2.shots = sampleDB.shots ++ added ∧
      added.length = [JVal.obj [("prompt", .str "A")], .obj [("prompt", .str "B")]].length ∧
      ∀ (j : Nat) (e : JVal),
        [JVal.obj [("prompt", .str "A")], .obj [("prompt", .str "B")]][j]? = some e →
        ∃ s ws, added[j]? = some s ∧ decodeWorkerShot e = some ws ∧
          s.Order = (j : Int) ∧ s.Prompt = ws.Prompt ∧ s.ProjectID = sbTask.ProjectID ∧
          s.Status = "pending" ∧ s.ID = idleWorld.uuid j ∧
          ∀ p, HasPrompt e p → s.Prompt = p) ∧
    ∃ t, (HandleGenerateTask (sampleWorld (.response 200 (.ok ⟨"success", abResult, ""⟩)))
        sampleDB (.ok ⟨"t1"⟩)).2.First "t1" = some t ∧
      t.Status = TaskStatusSuccess ∧ t.Result = abResult :=
  have hall : ∀ e ∈ [JVal.obj [("prompt", .str "A")], .obj [("prompt", .str "B")]],
      decodable e = true := by
    intro e he
    simp only [List.mem_cons, List.mem_singleton, List.not_mem_nil, or_false] at he
    rcases he with rfl | rfl <;> rfl
  ⟨rfl, rfl, rfl, hall,
    storyboard_happy_path (sampleWorld (.response 200 (.ok ⟨"success", abResult, ""⟩)))
      sampleDB "t1" sbTask ⟨"success", abResult, ""⟩ _ rfl rfl rfl rfl rfl hall rfl⟩

/-! ## The shot reconciler (C5) -/

theorem handleShotUpdate_string (db : DB) (now : Nat) (shotID : String) (result : JSONMap)
    (url : String) (rest : List JVal) (hid : shotID ≠ "")
    (himg : result.get "images" = some (.arr (.str url :: rest))) :
    handleShotUpdate db now shotID result
      = db.updatesShot now shotID ⟨some url, some "completed"⟩ := by
  unfold handleShotUpdate
  rw [if_neg hid, himg]
  rfl

theorem handleShotUpdate_noop (db : DB) (now : Nat) (shotID : String) (result : JSONMap)
    (hno : shotID = "" ∨ ∀ url rest, result.get "images" ≠ some (.arr (.str url :: rest))) :
    handleShotUpdate db now shotID result = db := by
  unfold handleShotUpdate
  by_cases hid : shotID = ""
  · rw [if_pos hid]
  · rw [if_neg hid]
    rcases hno with h | h
    · exact absurd h hid
    · dsimp only
      cases hg : result.get "images" with
      | none => rfl
      | some v =>
        cases v with
        | arr xs =>
          cases xs with
          | nil => rfl
          | cons first tl =>
            cases first with
            | str u => exact absurd hg (h u tl)
            | _ => rfl
        | _ => rfl

/-- C5, as stated, fails: `result.images` is a non-empty list whose first element is not a
string; the claim has Shot `S1` receive that element as image path and become completed,
but the store is left exactly as it was. -/
theorem non_string_image_is_ignored :
    (JSONMap.map [("images", .arr [.num 42])]).get "images" = some (.arr [.num 42]) ∧
    handleShotUpdate sampleDB 50 "S1" (.map [("images", .arr [.num 42])]) = sampleDB ∧
    (handleShotUpdate sampleDB 50 "S1" (.map [("images", .arr [.num 42])])).shots.map
      (fun s => (s.ID, s.ImagePath, s.Status)) = [("S1", "", "pending")] :=
  ⟨rfl, rfl, rfl⟩

/-- C5 (amended): `handleShotUpdate` never touches the task table; if `shot_id` is non-empty
and `result.images` is a list whose first element is a string, every Shot row with that id
gets that string as `image_path`, status `completed` and a refreshed `updated_at`, all other
columns and rows being kept; in every other case (empty `shot_id`, `images` absent, not a
list, empty, or with a first element that is not a string) the store is unchanged. -/
theorem handleShotUpdate_effect (db : DB) (now : Nat) (shotID : String) (result : JSONMap) :
    (handleShotUpdate db now shotID result).tasks = db.tasks ∧
    (∀ (url : String) (rest : List JVal), shotID ≠ "" →
      result.get "images" = some (.arr (.str url :: rest)) →
      (handleShotUpdate db now shotID result).shots
        = db.shots.map (fun s =>
            if s.ID = shotID then
              { s with ImagePath := url, Status := "completed", UpdatedAt := now }
            else s)) ∧
    ((shotID = "" ∨ ∀ url rest, result.get "images" ≠ some (.arr (.str url :: rest))) →
      handleShotUpdate db now shotID result = db) := by
  refine ⟨handleShotUpdate_tasks db now shotID result, ?_, handleShotUpdate_noop db now shotID result⟩
  intro url rest hid himg
  rw [handleShotUpdate_string db now shotID result url rest hid himg]
  rfl

/-- Witness for C5: the spec's example, one image location for Shot `S1`. -/
theorem handleShotUpdate_effect_witness :
    "S1" ≠ "" ∧ imgResult.get "images" = some (.arr (.str "http://x/img.png" :: [])) ∧
    (handleShotUpdate sampleDB 50 "S1" imgResult).shots
      = sampleDB.shots.map (fun s =>
          if s.ID = "S1" then
            { s with ImagePath := "http://x/img.png", Status := "completed", UpdatedAt := 50 }
          else s) :=
  ⟨by decide, rfl,
    (handleShotUpdate_effect sampleDB 50 "S1" imgResult).2.1 "http://x/img.png" []
      (by decide) rfl⟩

/-! ## Worker-reported failure (C6) -/

/-- C6, as stated, fails: task `t2` carries the error of an earlier transport failure; the
worker now answers `failed` with an empty error message; the task ends Failed but its error
is still the old message, not the worker's (empty) one. -/
theorem empty_worker_error_keeps_old :
    (retriedDB.First "t2").map (fun t => t.Error) = some "Worker connection error: down" ∧
    (WorkerResponse.mk "failed" .nil "").Error = "" ∧
    (HandleGenerateTask (sampleWorld (.response 200 (.ok ⟨"failed", .nil, ""⟩))) retriedDB
      (.ok ⟨"t2"⟩)).1.isNone = true ∧
    ((HandleGenerateTask (sampleWorld (.response 200 (.ok ⟨"failed", .nil, ""⟩))) retriedDB
      (.ok ⟨"t2"⟩)).2.First "t2").map (fun t => (t.Status, t.Error))
      = some ("failed", "Worker connection error: down") :=
  ⟨rfl, rfl, rfl, rfl⟩

/-- C6 (amended): for every existing task and every decoded worker response whose status is
not `success`, `HandleGenerateTask` returns nil, leaves the Shot table and the task's result
unchanged, and the task ends Failed with the worker's error message when that message is
non-empty (an empty message leaves the stored error as it was). -/
theorem logical_failure_fails_task (w : World) (db : DB) (id : String) (task : Task)
    (resp : WorkerResponse) (h : db.First id = some task)
    (hc : callWorker w (workerReq task) = .ok resp) (hs : resp.Status ≠ "success") :
    (HandleGenerateTask w db (.ok ⟨id⟩)).1 = none ∧
    (HandleGenerateTask w db (.ok ⟨id⟩)).2.shots = db.shots ∧
    ∃ t, (HandleGenerateTask w db (.ok ⟨id⟩)).2.First id = some t ∧
      t.Status = TaskStatusFailed ∧
      t.Error = (if resp.Error = "" then task.Error else resp.Error) ∧
      t.Result = task.Result := by
  rw [handle_loaded w db id task h, dispatch_logical _ _ _ _ hc hs]
  refine ⟨rfl, ?_, _, final_First w db _ id task h rfl _ _ _, rfl, ?_, rfl⟩
  · simp only [updateStatus_shots]
  · simp [Task.written]

/-- Witness for C6: the spec's example, the worker answering `failed` with `bad prompt`. -/
theorem logical_failure_fails_task_witness :
    sampleDB.First "t2" = some sgTask ∧
    (WorkerResponse.mk "failed" .nil "bad prompt").Status ≠ "success" ∧
    (HandleGenerateTask (sampleWorld (.response 200 (.ok ⟨"failed", .nil, "bad prompt"⟩)))
      sampleDB (.ok ⟨"t2"⟩)).1 = none ∧
    (HandleGenerateTask (sampleWorld (.response 200 (.ok ⟨"failed", .nil, "bad prompt"⟩)))
      sampleDB (.ok ⟨"t2"⟩)).2.shots = sampleDB.shots ∧
    ∃ t, (HandleGenerateTask (sampleWorld (.response 200 (.ok ⟨"failed", .nil, "bad prompt"⟩)))
        sampleDB (.ok ⟨"t2"⟩)).2.First "t2" = some t ∧
      t.Status = TaskStatusFailed ∧
      t.Error = (if (WorkerResponse.mk "failed" .nil "bad prompt").Error = "" then sgTask.Error
        else (WorkerResponse.mk "failed" .nil "bad prompt").Error) ∧
      t.Result = sgTask.Result :=
  ⟨rfl, by decide,
    logical_failure_fails_task
      (sampleWorld (.response 200 (.ok ⟨"failed", .nil, "bad prompt"⟩)))
      sampleDB "t2" sgTask ⟨"failed", .nil, "bad prompt"⟩ rfl rfl (by decide)⟩

/-! ## What the queue is told (C7) -/

theorem callWorker_error_iff (w : World) (req : JSONMap) :
    (∃ err, callWorker w req = .error err) ↔ (w.post req).transportFailure = true := by
  unfold callWorker
  cases w.post req with
  | connErr m => simp [HttpOutcome.transportFailure]
  | response code body =>
    cases body with
    | error m => by_cases hcode : code = 200 <;> simp [HttpOutcome.transportFailure, hcode]
    | ok r => by_cases hcode : code = 200 <;> simp [HttpOutcome.transportFailure, hcode]

theorem callWorker_error_skip (w : World) (req : JSONMap) (err : GoError)
    (h : callWorker w req = .error err) : err.skipRetry = false := by
  unfold callWorker at h
  cases hp : w.post req with
  | connErr m =>
    rw [hp] at h
    simp at h
    rw [← h]
  | response code body =>
    rw [hp] at h
    by_cases hcode : code = 200
    · cases body with
      | error m => simp [hcode] at h; rw [← h]
      | ok r => simp [hcode] at h
    · simp [hcode] at h
      rw [← h]

theorem dispatch_ok_returns_nil (w : World) (db : DB) (task : Task) (resp : WorkerResponse)
    (h : callWorker w (workerReq task) = .ok resp) : (dispatchLoaded w db task).1 = none := by
  by_cases hs : resp.Status = "success"
  · cases hrec : (reconcile w db task resp.Result).2 with
    | some pe => rw [dispatch_reconcile_err _ _ _ _ h hs pe hrec]
    | none => rw [dispatch_reconcile_ok _ _ _ _ h hs hrec]
  · rw [dispatch_logical _ _ _ _ h hs]

/-- C7: the code departs from the claim on a delivery whose identifier names no task. The
worker would answer every request with HTTP 200 and `success`, so no transport failure can
occur, yet the handler returns an error that does not wrap `SkipRetry`, which the queue
retries; the sibling early exit for a malformed envelope does wrap it and is a permanent
failure. -/
theorem task_not_found_is_retried :
    sampleDB.First "gone" = none ∧
    (∀ req, (sampleWorld (.response 200 (.ok ⟨"success", .nil, ""⟩))).post req
      = .response 200 (.ok ⟨"success", .nil, ""⟩)) ∧
    (HttpOutcome.response 200 (.ok ⟨"success", .nil, ""⟩)).transportFailure = false ∧
    classify (HandleGenerateTask (sampleWorld (.response 200 (.ok ⟨"success", .nil, ""⟩)))
      sampleDB (.ok ⟨"gone"⟩)).1 = .retryable ∧
    (HandleGenerateTask (sampleWorld (.response 200 (.ok ⟨"success", .nil, ""⟩)))
      sampleDB (.ok ⟨"gone"⟩)).2.tasks.map (fun t => (t.ID, t.Status))
      = sampleDB.tasks.map (fun t => (t.ID, t.Status)) ∧
    classify (HandleGenerateTask (sampleWorld (.response 200 (.ok ⟨"success", .nil, ""⟩)))
      sampleDB (.error "unexpected end of JSON input")).1 = .permanentlyFailed :=
  ⟨rfl, fun _ => rfl, rfl, rfl, rfl, rfl⟩

/-- A malformed envelope is a permanent failure and leaves the store as it was. -/
theorem malformed_envelope_is_permanent (w : World) (db : DB) (err : String) :
    classify (HandleGenerateTask w db (.error err)).1 = .permanentlyFailed ∧
    (HandleGenerateTask w db (.error err)).2 = db :=
  ⟨rfl, rfl⟩

/-- For a delivery whose task is in the store, the handler's return value is retryable exactly
when the worker call fails at transport level (connection error, non-200 status code,
undecodable body) and done otherwise; it is never a permanent failure. -/
theorem loaded_task_retry_classification (w : World) (db : DB) (id : String) (task : Task)
    (hf : db.First id = some task) :
    (classify (HandleGenerateTask w db (.ok ⟨id⟩)).1 = .retryable
      ↔ (w.post (workerReq task)).transportFailure = true) ∧
    (classify (HandleGenerateTask w db (.ok ⟨id⟩)).1 = .done
      ↔ (w.post (workerReq task)).transportFailure = false) ∧
    classify (HandleGenerateTask w db (.ok ⟨id⟩)).1 ≠ .permanentlyFailed := by
  have hl := handle_loaded w db id task hf
  cases hc : callWorker w (workerReq task) with
  | error err =>
    have ht : (w.post (workerReq task)).transportFailure = true :=
      (callWorker_error_iff w _).mp ⟨err, hc⟩
    have h1 : classify (HandleGenerateTask w db (.ok ⟨id⟩)).1 = .retryable := by
      rw [hl, dispatch_transport _ _ _ _ hc]
      simp only [classify, callWorker_error_skip w _ err hc]
      rfl
    rw [h1]
    simp [ht]
  | ok resp =>
    have ht : (w.post (workerReq task)).transportFailure = false := by
      cases hb : (w.post (workerReq task)).transportFailure with
      | false => rfl
      | true =>
        obtain ⟨err, he⟩ := (callWorker_error_iff w _).mpr hb
        rw [hc] at he
        cases he
    have h1 : classify (HandleGenerateTask w db (.ok ⟨id⟩)).1 = .done := by
      rw [hl, dispatch_ok_returns_nil _ _ _ _ hc]
      rfl
    rw [h1]
    simp [ht]

/-! ## Handling a task that is already terminal (C8) -/

/-- C8, as stated, fails: task `t1` is already Success; the handler's first write sets it to
Processing, and since the worker is unreachable the run leaves it Failed. Likewise task `t2`
of `retriedDB` is Failed and a run with a successful worker leaves it Success. -/
theorem terminal_status_is_overwritten :
    (doneDB.First "t1").map (fun t => t.Status) = some "success" ∧
    (match loadAndMarkProcessing idleWorld doneDB (.ok ⟨"t1"⟩) with
      | .ok r => (r.2.First "t1").map (fun t => t.Status)
      | .error _ => none) = some "processing" ∧
    ((HandleGenerateTask idleWorld doneDB (.ok ⟨"t1"⟩)).2.First "t1").map (fun t => t.Status)
      = some "failed" ∧
    (retriedDB.First "t2").map (fun t => t.Status) = some "failed" ∧
    ((HandleGenerateTask (sampleWorld (.response 200 (.ok ⟨"success", imgResult, ""⟩)))
      retriedDB (.ok ⟨"t2"⟩)).2.First "t2").map (fun t => t.Status) = some "success" :=
  ⟨rfl, rfl, rfl, rfl, rfl⟩

/-- C8 (amended): the handler does not look at the stored status. For every existing task,
whatever its status (Success and Failed included), the first write sets the status to
Processing and the rest of the run starts from that store; the run ends with the status
Success or Failed, and it is Success exactly when the worker call returned a response with
status `success` and the reconciler did not fail. -/
theorem status_is_rewritten_each_run (w : World) (db : DB) (id : String) (task : Task)
    (h : db.First id = some task) :
    (∃ db1, loadAndMarkProcessing w db (.ok ⟨id⟩) = .ok (task, db1) ∧
      (db1.First id).map (fun t => t.Status) = some TaskStatusProcessing ∧
      HandleGenerateTask w db (.ok ⟨id⟩) = dispatchLoaded w db1 task) ∧
    ∃ t, (HandleGenerateTask w db (.ok ⟨id⟩)).2.First id = some t ∧
      (t.Status = TaskStatusSuccess ∨ t.Status = TaskStatusFailed) ∧
      (t.Status = TaskStatusSuccess ↔
        ∃ resp, callWorker w (workerReq task) = .ok resp ∧ resp.Status = "success" ∧
          (reconcile w (updateStatus db (w.clock 0) id TaskStatusProcessing .nil "") task
            resp.Result).2 = none) := by
  constructor
  · refine ⟨updateStatus db (w.clock 0) id TaskStatusProcessing .nil "", ?_, ?_,
      handle_loaded w db id task h⟩
    · unfold loadAndMarkProcessing
      simp only [h, First_ID h]
    · rw [updateStatus_First, h]
      rfl
  · rw [handle_loaded w db id task h]
    cases hc : callWorker w (workerReq task) with
    | error err =>
      rw [dispatch_transport _ _ _ _ hc]
      refine ⟨_, final_First w db _ id task h rfl _ _ _, Or.inr rfl, ?_⟩
      constructor
      · intro hs
        exact absurd hs failed_ne_success
      · rintro ⟨resp, hr, _⟩
        cases hr
    | ok resp =>
      by_cases hst : resp.Status = "success"
      · cases hrec : (reconcile w (updateStatus db (w.clock 0) id TaskStatusProcessing .nil "")
            task resp.Result).2 with
        | some pe =>
          rw [dispatch_reconcile_err _ _ _ _ hc hst pe hrec]
          refine ⟨_, final_First w db _ id task h (reconcile_tasks _ _ _ _) _ _ _, Or.inr rfl,
            ?_⟩
          constructor
          · intro hs
            exact absurd hs failed_ne_success
          · rintro ⟨resp2, hr, _, hn⟩
            cases hr
            rw [hrec] at hn
            cases hn
        | none =>
          rw [dispatch_reconcile_ok _ _ _ _ hc hst hrec]
          refine ⟨_, final_First w db _ id task h (reconcile_tasks _ _ _ _) _ _ _, Or.inl rfl,
            ?_⟩
          constructor
          · intro _
            exact ⟨resp, rfl, hst, hrec⟩
          · intro _
            rfl
      · rw [dispatch_logical _ _ _ _ hc hst]
        refine ⟨_, final_First w db _ id task h rfl _ _ _, Or.inr rfl, ?_⟩
        constructor
        · intro hs
          exact absurd hs failed_ne_success
        · rintro ⟨resp2, hr, hs2, _⟩
          cases hr
          exact absurd hs2 hst

/-- Witness for C8: the already successful task `t1` with an unreachable worker. -/
theorem status_is_rewritten_each_run_witness :
    doneDB.First "t1" = some doneTask ∧
    doneTask.Status = TaskStatusSuccess ∧
    ((∃ db1, loadAndMarkProcessing idleWorld doneDB (.ok ⟨"t1"⟩) = .ok (doneTask, db1) ∧
      (db1.First "t1").map (fun t => t.Status) = some TaskStatusProcessing ∧
      HandleGenerateTask idleWorld doneDB (.ok ⟨"t1"⟩) = dispatchLoaded idleWorld db1 doneTask) ∧
    ∃ t, (HandleGenerateTask idleWorld doneDB (.ok ⟨"t1"⟩)).2.First "t1" = some t ∧
      (t.Status = TaskStatusSuccess ∨ t.Status = TaskStatusFailed) ∧
      (t.Status = TaskStatusSuccess ↔
        ∃ resp, callWorker idleWorld (workerReq doneTask) = .ok resp ∧
          resp.Status = "success" ∧
          (reconcile idleWorld
            (updateStatus doneDB (idleWorld.clock 0) "t1" TaskStatusProcessing .nil "")
            doneTask resp.Result).2 = none)) :=
  ⟨rfl, rfl, status_is_rewritten_each_run idleWorld doneDB "t1" doneTask rfl⟩

/-! ## Replaying a delivery (C9) -/

theorem handleShotUpdate_shots_congr (db db0 : DB) (hsh : db.shots = db0.shots) (now : Nat)
    (shotID : String) (result : JSONMap) :
    (handleShotUpdate db now shotID result).shots
      = (handleShotUpdate db0 now shotID result).shots := by
  by_cases hno : shotID = "" ∨ ∀ url rest, result.get "images" ≠ some (.arr (.str url :: rest))
  · rw [handleShotUpdate_noop db now shotID result hno,
      handleShotUpdate_noop db0 now shotID result hno, hsh]
  · push_neg at hno
    obtain ⟨hid, url, rest, himg⟩ := hno
    rw [handleShotUpdate_string db now shotID result url rest hid himg,
      handleShotUpdate_string db0 now shotID result url rest hid himg]
    unfold DB.updatesShot
    simp only [hsh]

theorem handleShotUpdate_replay (db db1 : DB) (n1 n2 : Nat) (shotID : String)
    (result : JSONMap) (h1 : db1.shots = (handleShotUpdate db n1 shotID result).shots) :
    (handleShotUpdate db1 n2 shotID result).shots.map Shot.sansUpdatedAt
      = db1.shots.map Shot.sansUpdatedAt := by
  by_cases hno : shotID = "" ∨ ∀ url rest, result.get "images" ≠ some (.arr (.str url :: rest))
  · rw [handleShotUpdate_noop db1 n2 shotID result hno]
  · push_neg at hno
    obtain ⟨hid, url, rest, himg⟩ := hno
    rw [handleShotUpdate_string db n1 shotID result url rest hid himg] at h1
    rw [handleShotUpdate_string db1 n2 shotID result url rest hid himg]
    unfold DB.updatesShot at h1 ⊢
    simp only [h1, List.map_map]
    apply List.map_congr_left
    intro s _
    by_cases hs : s.ID = shotID
    · simp [hs, ShotUpdates.apply, Shot.sansUpdatedAt]
    · simp [hs]

theorem handle_shots_success (w : World) (db : DB) (id : String) (task : Task)
    (resp : WorkerResponse) (h : db.First id = some task)
    (hc : callWorker w (workerReq task) = .ok resp) (hs : resp.Status = "success") :
    (HandleGenerateTask w db (.ok ⟨id⟩)).2.shots
      = (reconcile w (updateStatus db (w.clock 0) id TaskStatusProcessing .nil "") task
          resp.Result).1.shots := by
  rw [handle_loaded w db id task h]
  cases hrec : (reconcile w (updateStatus db (w.clock 0) id TaskStatusProcessing .nil "")
      task resp.Result).2 with
  | some pe => rw [dispatch_reconcile_err _ _ _ _ hc hs pe hrec, updateStatus_shots]
  | none => rw [dispatch_reconcile_ok _ _ _ _ hc hs hrec, updateStatus_shots]

/-- The columns of a task the handler never writes. -/
theorem handle_First_fields (w : World) (db : DB) (id : String) (task : Task)
    (h : db.First id = some task) :
    ∃ t, (HandleGenerateTask w db (.ok ⟨id⟩)).2.First id = some t ∧
      t.ID = task.ID ∧ t.ProjectID = task.ProjectID ∧ t.ShotID = task.ShotID ∧
      t.Type_ = task.Type_ ∧ t.Parameters = task.Parameters := by
  rw [handle_loaded w db id task h]
  cases hc : callWorker w (workerReq task) with
  | error err =>
    rw [dispatch_transport _ _ _ _ hc]
    exact ⟨_, final_First w db _ id task h rfl _ _ _, rfl, rfl, rfl, rfl, rfl⟩
  | ok resp =>
    by_cases hst : resp.Status = "success"
    · cases hrec : (reconcile w (updateStatus db (w.clock 0) id TaskStatusProcessing .nil "")
          task resp.Result).2 with
      | some pe =>
        rw [dispatch_reconcile_err _ _ _ _ hc hst pe hrec]
        exact ⟨_, final_First w db _ id task h (reconcile_tasks _ _ _ _) _ _ _,
          rfl, rfl, rfl, rfl, rfl⟩
      | none =>
        rw [dispatch_reconcile_ok _ _ _ _ hc hst hrec]
        exact ⟨_, final_First w db _ id task h (reconcile_tasks _ _ _ _) _ _ _,
          rfl, rfl, rfl, rfl, rfl⟩
    · rw [dispatch_logical _ _ _ _ hc hst]
      exact ⟨_, final_First w db _ id task h rfl _ _ _, rfl, rfl, rfl, rfl, rfl⟩

theorem workerReq_congr (t task : Task) (h1 : t.ID = task.ID) (h2 : t.Type_ = task.Type_)
    (h3 : t.Parameters = task.Parameters) : workerReq t = workerReq task := by
  unfold workerReq
  rw [h1, h2, h3]

theorem reconcile_shotGen (w : World) (db : DB) (task : Task) (result : JSONMap)
    (ht : task.Type_ = TaskTypeShotGen) :
    reconcile w db task result
      = (handleShotUpdate db (w.clock 1) task.ShotID result, none) := by
  unfold reconcile
  rw [if_pos ht]

theorem reconcile_other (w : World) (db : DB) (task : Task) (result : JSONMap)
    (h1 : task.Type_ ≠ TaskTypeShotGen) (h2 : task.Type_ ≠ TaskTypeStoryboard) :
    reconcile w db task result = (db, none) := by
  unfold reconcile
  rw [if_neg h1, if_neg h2]

theorem handleStoryboardCreation_ok_inv (w : World) (db : DB) (taskID projectID : String)
    (result : JSONMap) (hok : (handleStoryboardCreation w db taskID projectID result).2 = none) :
    ∃ l, result.get "shots" = some (.arr l) ∧
      (handleStoryboardCreation w db taskID projectID result).1.shots
        = db.shots ++ (buildFrom w.uuid projectID 0 0 l).map (Shot.inserted (w.clock 1)) := by
  unfold handleStoryboardCreation at hok ⊢
  cases hg : result.get "shots" with
  | none => rw [hg] at hok; cases hok
  | some v =>
    cases v with
    | arr l =>
      refine ⟨l, rfl, ?_⟩
      rw [hg] at hok
      simp only [storyboardLoop_eq, List.nil_append, List.length_nil] at hok ⊢
      by_cases hlen : (buildFrom w.uuid projectID 0 0 l).length > 0
      · rw [if_pos hlen] at hok ⊢
        cases hce : w.createErr with
        | some e => rw [hce] at hok; cases hok
        | none => rfl
      · rw [if_neg hlen]
        have : buildFrom w.uuid projectID 0 0 l = [] := by
          cases hb : buildFrom w.uuid projectID 0 0 l with
          | nil => rfl
          | cons a t => rw [hb] at hlen; simp at hlen
        rw [this]
        simp
    | null => rw [hg] at hok; cases hok
    | bool b => rw [hg] at hok; cases hok
    | num n => rw [hg] at hok; cases hok
    | str x => rw [hg] at hok; cases hok
    | obj kvs => rw [hg] at hok; cases hok

theorem reconcile_storyboard_ok_inv (w : World) (db : DB) (task : Task) (result : JSONMap)
    (ht : task.Type_ = TaskTypeStoryboard) (hok : (reconcile w db task result).2 = none) :
    ∃ l, result.get "shots" = some (.arr l) ∧
      (reconcile w db task result).1.shots
        = db.shots
          ++ (buildFrom w.uuid task.ProjectID 0 0 l).map (Shot.inserted (w.clock 1)) := by
  rw [reconcile_storyboard _ _ _ _ ht] at hok ⊢
  cases hh : handleStoryboardCreation w db task.ID task.ProjectID result with
  | mk d e =>
    cases e with
    | some err => rw [hh] at hok; cases hok
    | none =>
      have := handleStoryboardCreation_ok_inv w db task.ID task.ProjectID result
        (by rw [hh])
      rw [hh] at this
      exact this

theorem reconcile_ok_of_success (w : World) (db : DB) (id : String) (task : Task)
    (resp : WorkerResponse) (h : db.First id = some task)
    (hc : callWorker w (workerReq task) = .ok resp) (hs : resp.Status = "success")
    (hsucc : ((HandleGenerateTask w db (.ok ⟨id⟩)).2.First id).map (fun t => t.Status)
      = some TaskStatusSuccess) :
    (reconcile w (updateStatus db (w.clock 0) id TaskStatusProcessing .nil "") task
      resp.Result).2 = none := by
  cases hrec : (reconcile w (updateStatus db (w.clock 0) id TaskStatusProcessing .nil "")
      task resp.Result).2 with
  | none => rfl
  | some pe =>
    rw [handle_loaded w db id task h, dispatch_reconcile_err _ _ _ _ hc hs pe hrec,
      final_First w db _ id task h (reconcile_tasks _ _ _ _)] at hsucc
    simp only [Option.map_some', Option.some.injEq] at hsucc
    exact absurd hsucc failed_ne_success

/-- C9, as stated, fails: a first run leaves storyboard task `t1` in Success with two new
Shot rows after the authored one; a second run, with the identical worker response and
fresh identifiers, inserts two further rows with the same orders and prompts. -/
theorem storyboard_replay_inserts_again :
    ((HandleGenerateTask abWorld sampleDB (.ok ⟨"t1"⟩)).2.First "t1").map (fun t => t.Status)
      = some "success" ∧
    (HandleGenerateTask abWorld sampleDB (.ok ⟨"t1"⟩)).2.shots.map
        (fun s => (s.ID, s.Order, s.Prompt))
      = [("S1", 0, "a cat"), ("u0", 0, "A"), ("u1", 1, "B")] ∧
    (HandleGenerateTask (laterWorld (.response 200 (.ok ⟨"success", abResult, ""⟩)))
        (HandleGenerateTask abWorld sampleDB (.ok ⟨"t1"⟩)).2 (.ok ⟨"t1"⟩)).2.shots.map
        (fun s => (s.ID, s.Order, s.Prompt))
      = [("S1", 0, "a cat"), ("u0", 0, "A"), ("u1", 1, "B"), ("v0", 0, "A"), ("v1", 1, "B")] :=
  ⟨rfl, by decide, by decide⟩

/-- C9 (amended): let a first run leave the task in Success on a worker `success` response,
and let a second run for the same task receive the identical response. For a ShotGeneration
task the second run leaves the same Shot rows with every column other than `updated_at`
unchanged. For a Storyboard task (the batch insert not failing) the second run appends a
further batch of as many rows as the first run did, one per decodable element of
`result.shots`; nothing guards against it. For any other task type the Shot table is
unchanged. -/
theorem replay_effect_on_shots (w1 w2 : World) (db : DB) (id : String) (task : Task)
    (resp : WorkerResponse) (h : db.First id = some task)
    (hc1 : callWorker w1 (workerReq task) = .ok resp)
    (hc2 : callWorker w2 (workerReq task) = .ok resp) (hs : resp.Status = "success")
    (hsucc : ((HandleGenerateTask w1 db (.ok ⟨id⟩)).2.First id).map (fun t => t.Status)
      = some TaskStatusSuccess)
    (db1 db2 : DB) (hd1 : db1 = (HandleGenerateTask w1 db (.ok ⟨id⟩)).2)
    (hd2 : db2 = (HandleGenerateTask w2 db1 (.ok ⟨id⟩)).2) :
    (task.Type_ = TaskTypeShotGen →
      db2.shots.map Shot.sansUpdatedAt = db1.shots.map Shot.sansUpdatedAt) ∧
    (task.Type_ = TaskTypeStoryboard → w2.createErr = none →
      ∃ l batch, resp.Result.get "shots" = some (.arr l) ∧
        db1.shots.length = db.shots.length + l.countP decodable ∧
        db2.shots = db1.shots ++ batch ∧ batch.length = l.countP decodable) ∧
    (task.Type_ ≠ TaskTypeShotGen → task.Type_ ≠ TaskTypeStoryboard →
      db2.shots = db1.shots ∧ db1.shots = db.shots) := by
  obtain ⟨t1, hF1, hID, hPID, hSID, hTy, hPar⟩ := handle_First_fields w1 db id task h
  rw [← hd1] at hF1
  have hc2t : callWorker w2 (workerReq t1) = .ok resp := by
    rw [workerReq_congr t1 task hID hTy hPar]
    exact hc2
  have hsh1 := handle_shots_success w1 db id task resp h hc1 hs
  rw [← hd1] at hsh1
  have hsh2 := handle_shots_success w2 db1 id t1 resp hF1 hc2t hs
  rw [← hd2] at hsh2
  refine ⟨?_, ?_, ?_⟩
  · intro ht
    have ht1 : t1.Type_ = TaskTypeShotGen := by rw [hTy]; exact ht
    rw [reconcile_shotGen _ _ _ _ ht] at hsh1
    rw [reconcile_shotGen _ _ _ _ ht1, hSID] at hsh2
    simp only at hsh1 hsh2
    rw [handleShotUpdate_shots_congr _ db (updateStatus_shots _ _ _ _ _ _)] at hsh1
    rw [handleShotUpdate_shots_congr _ db1 (updateStatus_shots _ _ _ _ _ _)] at hsh2
    rw [hsh2]
    exact handleShotUpdate_replay db db1 (w1.clock 1) (w2.clock 1) task.ShotID resp.Result hsh1
  · intro ht hi
    have ht1 : t1.Type_ = TaskTypeStoryboard := by rw [hTy]; exact ht
    have hok := reconcile_ok_of_success w1 db id task resp h hc1 hs hsucc
    obtain ⟨l, hl, hsh⟩ := reconcile_storyboard_ok_inv w1 _ task resp.Result ht hok
    rw [hsh, updateStatus_shots] at hsh1
    refine ⟨l, (buildFrom w2.uuid t1.ProjectID 0 0 l).map (Shot.inserted (w2.clock 1)), hl,
      ?_, ?_, ?_⟩
    · rw [hsh1, List.length_append, List.length_map, buildFrom_length]
    · rw [hsh2, reconcile_storyboard _ _ _ _ ht1,
        handleStoryboardCreation_list w2 _ t1.ID t1.ProjectID resp.Result l hl hi]
      simp only [updateStatus_shots]
    · rw [List.length_map, buildFrom_length]
  · intro hn1 hn2
    have hn1t : t1.Type_ ≠ TaskTypeShotGen := by rw [hTy]; exact hn1
    have hn2t : t1.Type_ ≠ TaskTypeStoryboard := by rw [hTy]; exact hn2
    rw [reconcile_other _ _ _ _ hn1 hn2, updateStatus_shots] at hsh1
    rw [reconcile_other _ _ _ _ hn1t hn2t, updateStatus_shots] at hsh2
    exact ⟨hsh2, hsh1⟩

/-- Witness for C9: the shot-generation task `t2` handled twice with the same image result. -/
theorem replay_effect_on_shots_witness :
    sampleDB.First "t2" = some sgTask ∧ sgTask.Type_ = TaskTypeShotGen ∧
    ((HandleGenerateTask imgWorld sampleDB (.ok ⟨"t2"⟩)).2.First "t2").map (fun t => t.Status)
      = some TaskStatusSuccess ∧
    (HandleGenerateTask (laterWorld (.response 200 (.ok ⟨"success", imgResult, ""⟩)))
        (HandleGenerateTask imgWorld sampleDB (.ok ⟨"t2"⟩)).2
        (.ok ⟨"t2"⟩)).2.shots.map Shot.sansUpdatedAt
      = (HandleGenerateTask imgWorld sampleDB (.ok ⟨"t2"⟩)).2.shots.map Shot.sansUpdatedAt :=
  ⟨rfl, rfl, rfl,
    (replay_effect_on_shots imgWorld (laterWorld (.response 200 (.ok ⟨"success", imgResult, ""⟩)))
      sampleDB "t2" sgTask ⟨"success", imgResult, ""⟩ rfl rfl rfl rfl rfl _ _ rfl rfl).1 rfl⟩

end StoryToVideo
